import Mathlib

/-!
Shallow embedding of the module and symbol-resolution subsystem of the Rhai
scripting runtime (src/module.rs and src/config.rs), together with proofs of
the behavioural properties stated in the specification.

Modelling conventions:
* Rust `HashMap` is embedded as an association list with replace-on-insert
  semantics (`ainsert` / `alookup`); iteration order is irrelevant to every
  property proved here, and last-write-wins insertion is preserved exactly.
* Mutable references are embedded by explicit state passing: an operation
  that mutates through `&mut` returns the updated value.
* A Rust panic (`unwrap` on `None`, a failing `cast`, an out-of-bounds index)
  is embedded as the `none` case of an `Option`-valued result, distinct from
  every `Err` value.
* The type-erased boxed callable `FnAny` cannot be stored as a Lean function
  inside the recursive `Module` value (negative occurrence); it is embedded
  as an opaque handle with decidable equality, which is all the hash-table
  properties need.  The adapter closures built by `set_fn_N[_mut]` are
  embedded separately as explicit argument-array transformers.
-/

namespace Rhai

/-- Source position attached to tokens and errors (token.rs collaborator). -/
structure Position where
  line : Nat
  pos : Nat
deriving DecidableEq

/-- Runtime type identifier, standing for Rust `TypeId` values. -/
inductive TypeRep where
  | tUnit : TypeRep
  | tBool : TypeRep
  | tInt : TypeRep
  | tStr : TypeRep
  | tModule : TypeRep
  | tOther : Nat → TypeRep
deriving DecidableEq

/-- Modelled from the spec: a script-defined function definition (`FnDef`
from the parser collaborator, not part of the sources); only its name and
arity matter to this subsystem, the body is an opaque handle. -/
structure FnDef where
  name : String
  arity : Nat
  body : Nat
deriving DecidableEq

/-- Opaque handle standing for the shared boxed type-erased callable
`Rc<Box<FnAny>>`; distinct registrations carry distinct handles. -/
abbrev FnAny := Nat

/-- Evaluation errors of result.rs (a collaborator): the variants raised by
this subsystem, plus an opaque variant for compiler and evaluator errors. -/
inductive EvalAltResult where
  | errorVariableNotFound : String → Position → EvalAltResult
  | errorModuleNotFound : String → Position → EvalAltResult
  | errorFunctionNotFound : String → Position → EvalAltResult
  | errorOther : Nat → Position → EvalAltResult
deriving DecidableEq

/-- Re-stamp an error with a new source position
(`EvalAltResult::set_position`). -/
def EvalAltResult.set_position : EvalAltResult → Position → EvalAltResult
  | .errorVariableNotFound n _, p => .errorVariableNotFound n p
  | .errorModuleNotFound n _, p => .errorModuleNotFound n p
  | .errorFunctionNotFound n _, p => .errorFunctionNotFound n p
  | .errorOther t _, p => .errorOther t p

/-- Association-list lookup, embedding `HashMap::get`. -/
def alookup {κ α : Type} [DecidableEq κ] : List (κ × α) → κ → Option α
  | [], _ => none
  | (k, v) :: rest, key => if k = key then some v else alookup rest key

/-- Association-list insert, embedding `HashMap::insert`: replaces the
binding of an existing key, otherwise appends a new binding. -/
def ainsert {κ α : Type} [DecidableEq κ] : List (κ × α) → κ → α → List (κ × α)
  | [], key, v => [(key, v)]
  | (k, w) :: rest, key, v =>
      if k = key then (key, v) :: rest else (k, w) :: ainsert rest key v

mutual
/-- The dynamically-typed value (`Dynamic` from any.rs, a collaborator):
the variants this subsystem needs, including modules stored as values. -/
inductive Dyn where
  | unit : Dyn
  | boolv : Bool → Dyn
  | int : Int → Dyn
  | str : String → Dyn
  | modv : Module → Dyn

/-- An imported module: sub-modules, variables, external Rust functions
keyed by 64-bit hash, and a script-defined function library keyed by
name and arity. -/
inductive Module where
  | mk : List (String × Module) → List (String × Dyn) → List (Nat × FnAny) →
      List ((String × Nat) × FnDef) → Module
end

/-- Sub-modules map of a module. -/
def Module.modules : Module → List (String × Module)
  | .mk ms _ _ _ => ms

/-- Variables map of a module. -/
def Module.variables : Module → List (String × Dyn)
  | .mk _ vs _ _ => vs

/-- External Rust functions map of a module. -/
def Module.functions : Module → List (Nat × FnAny)
  | .mk _ _ fs _ => fs

/-- Script-defined function library of a module. -/
def Module.fn_lib : Module → List ((String × Nat) × FnDef)
  | .mk _ _ _ lib => lib

/-- Create a new empty module (`Module::new`, the derived default). -/
def Module.new : Module := .mk [] [] [] []

/-- The runtime type tag of a dynamic value (`Dynamic::type_id`). -/
def Dyn.typeOf : Dyn → TypeRep
  | .unit => .tUnit
  | .boolv _ => .tBool
  | .int _ => .tInt
  | .str _ => .tStr
  | .modv _ => .tModule

/-- Checked cast of a dynamic value to a module (`value.cast::<Module>()`
succeeds exactly when this returns `some`; otherwise the cast panics). -/
def Dyn.castModule : Dyn → Option Module
  | .modv m => some m
  | _ => none

/-- Does a variable exist in the module? -/
def Module.contains_var (m : Module) (name : String) : Bool :=
  (alookup m.variables name).isSome

/-- Get a module variable (`get_var` clones the stored value; cloning is the
identity on values here). -/
def Module.get_var (m : Module) (name : String) : Option Dyn :=
  alookup m.variables name

/-- Get a mutable reference to a module variable; in the pure embedding the
referenced value itself is returned. -/
def Module.get_var_mut (m : Module) (name : String) : Option Dyn :=
  alookup m.variables name

/-- Set a variable into the module, replacing an existing one of the
same name. -/
def Module.set_var (m : Module) (name : String) (value : Dyn) : Module :=
  .mk m.modules (ainsert m.variables name value) m.functions m.fn_lib

/-- Does a sub-module exist in the module? -/
def Module.contains_sub_module (m : Module) (name : String) : Bool :=
  (alookup m.modules name).isSome

/-- Get a sub-module. -/
def Module.get_sub_module (m : Module) (name : String) : Option Module :=
  alookup m.modules name

/-- Get a mutable reference to a sub-module; in the pure embedding the
referenced sub-module itself is returned. -/
def Module.get_sub_module_mut (m : Module) (name : String) : Option Module :=
  alookup m.modules name

/-- Set a sub-module into the module, replacing an existing one of the
same name. -/
def Module.set_sub_module (m : Module) (name : String) (sub : Module) : Module :=
  .mk (ainsert m.modules name sub) m.variables m.functions m.fn_lib

/-- The descent loop of `get_qualified_module_mut`: after the first path
element has been skipped, repeatedly descend through sub-modules, failing
with `ErrorModuleNotFound` at the first absent segment. -/
def Module.get_qualified_module_loop : Module → List (String × Position) →
    Except EvalAltResult Module
  | m, [] => .ok m
  | m, (id, id_pos) :: rest =>
    match m.get_sub_module_mut id with
    | some sub => sub.get_qualified_module_loop rest
    | none => .error (.errorModuleNotFound id id_pos)

/-- Get a mutable reference to a modules chain (`get_qualified_module_mut`).
The first module of the path is always skipped and assumed to be the same as
`self`; `drain.next().unwrap()` panics on an empty path, embedded as `none`. -/
def Module.get_qualified_module_mut (m : Module)
    (modules : List (String × Position)) :
    Option (Except EvalAltResult Module) :=
  match modules with
  | [] => none
  | _ :: rest => some (m.get_qualified_module_loop rest)

/-- Get a mutable reference to a modules-qualified variable
(`get_qualified_var_mut`); the outer `Option` is `none` exactly when the
path is empty (panic). -/
def Module.get_qualified_var_mut (m : Module) (name : String)
    (modules : List (String × Position)) (pos : Position) :
    Option (Except EvalAltResult Dyn) :=
  (m.get_qualified_module_mut modules).map fun r =>
    r.bind fun m2 =>
      match m2.get_var_mut name with
      | some v => .ok v
      | none => .error (.errorVariableNotFound name pos)

/-- Does the particular Rust function exist in the module
(`contains_fn`, keyed by the `calc_fn_hash` hash)? -/
def Module.contains_fn (m : Module) (hash : Nat) : Bool :=
  (alookup m.functions hash).isSome

/-- Get a Rust function by hash key (`get_fn`). -/
def Module.get_fn (m : Module) (hash : Nat) : Option FnAny :=
  alookup m.functions hash

/-- Get the script-defined function library (`get_fn_lib`). -/
def Module.get_fn_lib (m : Module) : List ((String × Nat) × FnDef) :=
  m.fn_lib

/-- Modelled from the spec: `FunctionsLib::get_function` of the engine.rs
collaborator — query the library for a script function matching a name
and arity. -/
def FunctionsLib.get_function (lib : List ((String × Nat) × FnDef))
    (name : String) (args : Nat) : Option FnDef :=
  alookup lib (name, args)

/-- Modelled from the spec: `FunctionsLib::merge` of the engine.rs
collaborator — the union of two libraries in which, on a name+arity
collision, the entry merged last wins. -/
def FunctionsLib.merge (a b : List ((String × Nat) × FnDef)) :
    List ((String × Nat) × FnDef) :=
  b.foldl (fun acc kv => ainsert acc kv.1 kv.2) a

/-- Get a modules-qualified functions library entry
(`get_qualified_fn_lib`); `none` exactly when the path is empty (panic). -/
def Module.get_qualified_fn_lib (m : Module) (name : String) (args : Nat)
    (modules : List (String × Position)) :
    Option (Except EvalAltResult (Option FnDef)) :=
  (m.get_qualified_module_mut modules).map fun r =>
    r.map fun m2 => FunctionsLib.get_function m2.fn_lib name args

/-- Injective code of a type identifier, used by the hash model. -/
def TypeRep.code : TypeRep → Nat
  | .tUnit => 0
  | .tBool => 1
  | .tInt => 2
  | .tStr => 3
  | .tModule => 4
  | .tOther n => 5 + n

/-- Injective code of a list of naturals (shifted pairing). -/
def natListCode : List Nat → Nat
  | [] => 0
  | n :: rest => Nat.pair n (natListCode rest) + 1

/-- Injective code of a string (via its character codes). -/
def strCode (s : String) : Nat :=
  natListCode (s.data.map Char.toNat)

/-- Fixed hashing seeds for stable hashing (config.rs `AHASH_SEED`);
`none` disables stable hashing. -/
def AHASH_SEED : Option (Nat × Nat × Nat × Nat) := none

/-- Code of a four-word seed. -/
def seedCode (s : Nat × Nat × Nat × Nat) : Nat :=
  Nat.pair s.1 (Nat.pair s.2.1 (Nat.pair s.2.2.1 s.2.2.2))

/-- Modelled from the spec: the effective hashing seed of one process run —
the configured fixed seed when one is set, otherwise a run-dependent
randomized seed (§4.2, §6). -/
def resolveSeed (cfg : Option (Nat × Nat × Nat × Nat)) (runSeed : Nat) : Nat :=
  match cfg with
  | some s => seedCode s
  | none => runSeed

/-- Modelled from the spec: `calc_fn_hash` of the utils.rs collaborator —
a deterministic 64-bit hash of a function name and its ordered parameter
type identifiers under a given seed; distinct overload keys receive
distinct hashes (§4.2).  The seed of the current run is threaded in
explicitly, following the design note of §9. -/
def calc_fn_hash (seed : Nat) (fn_name : String) (params : List TypeRep) : Nat :=
  Nat.pair seed (Nat.pair (strCode fn_name) (natListCode (params.map TypeRep.code)))

/-- Set a Rust function into the module under the hash of its name and
parameter types, replacing an existing function of the same hash; returns
the updated module together with the hash key (`set_fn`). -/
def Module.set_fn (m : Module) (seed : Nat) (fn_name : String)
    (params : List TypeRep) (func : FnAny) : Module × Nat :=
  let hash := calc_fn_hash seed fn_name params
  (.mk m.modules m.variables (ainsert m.functions hash func) m.fn_lib, hash)

/-- Register a zero-parameter function (`set_fn_0`): delegates to `set_fn`
with an empty parameter type list, storing the wrapped adapter. -/
def Module.set_fn_0 (m : Module) (seed : Nat) (fn_name : String)
    (func : FnAny) : Module × Nat :=
  m.set_fn seed fn_name [] func

/-- Register a one-parameter function (`set_fn_1` and `set_fn_1_mut`):
delegates to `set_fn` with the one parameter type. -/
def Module.set_fn_1 (m : Module) (seed : Nat) (fn_name : String)
    (tA : TypeRep) (func : FnAny) : Module × Nat :=
  m.set_fn seed fn_name [tA] func

/-- Register a two-parameter function (`set_fn_2` and `set_fn_2_mut`):
delegates to `set_fn` with the two parameter types. -/
def Module.set_fn_2 (m : Module) (seed : Nat) (fn_name : String)
    (tA tB : TypeRep) (func : FnAny) : Module × Nat :=
  m.set_fn seed fn_name [tA, tB] func

/-- Register a three-parameter function (`set_fn_3` and `set_fn_3_mut`):
delegates to `set_fn` with the three parameter types. -/
def Module.set_fn_3 (m : Module) (seed : Nat) (fn_name : String)
    (tA tB tC : TypeRep) (func : FnAny) : Module × Nat :=
  m.set_fn seed fn_name [tA, tB, tC] func

/-- Modelled from the spec: the language's namespace separator token
(`Token::DoubleColon.syntax()` of the token.rs collaborator). -/
def namespaceSeparator : String := "::"

/-- Get a modules-qualified function (`get_qualified_fn`): resolve the
module chain, look up by hash, and on a missing hash synthesize the fully
qualified display name by pushing every path segment followed by the
namespace separator, then the function name.  `none` exactly when the
path is empty (panic). -/
def Module.get_qualified_fn (m : Module) (name : String) (hash : Nat)
    (modules : List (String × Position)) (pos : Position) :
    Option (Except EvalAltResult FnAny) :=
  (m.get_qualified_module_mut modules).map fun r =>
    r.bind fun m2 =>
      match m2.get_fn hash with
      | some f => .ok f
      | none =>
        let fn_name :=
          modules.foldl (fun s seg => s ++ seg.1 ++ namespaceSeparator) ""
        .error (.errorFunctionNotFound (fn_name ++ name) pos)

/-- The adapter wrapped around a one-mutable-parameter closure by
`set_fn_1_mut`.  The closure `Fn(&mut A) -> Result<T>` is embedded as a map
from the first argument to the pair of its result (already converted into a
dynamic value) and the state the `&mut` reference leaves the argument in.
The slot is accessed by `downcast_mut` (a failing downcast, or an empty
argument array, panics: `none`); the result error is re-stamped with the
call position. -/
def set_fn_1_mut_adapter (tA : TypeRep)
    (func : Dyn → Except EvalAltResult Dyn × Dyn)
    (args : List Dyn) (pos : Position) :
    Option (Except EvalAltResult Dyn × List Dyn) :=
  match args with
  | a :: rest =>
    if a.typeOf = tA then
      let r := func a
      some (r.1.mapError (fun err => err.set_position pos), r.2 :: rest)
    else none
  | [] => none

/-- The adapter wrapped around a two-parameter closure with mutable first
parameter (`set_fn_2_mut`).  The second argument is moved out of its slot
by `mem::take` — leaving the default placeholder value behind — and cast;
the first slot is accessed in place through `downcast_mut`. -/
def set_fn_2_mut_adapter (tA tB : TypeRep)
    (func : Dyn → Dyn → Except EvalAltResult Dyn × Dyn)
    (args : List Dyn) (pos : Position) :
    Option (Except EvalAltResult Dyn × List Dyn) :=
  match args with
  | a :: b :: rest =>
    if b.typeOf = tB ∧ a.typeOf = tA then
      let r := func a b
      some (r.1.mapError (fun err => err.set_position pos), r.2 :: Dyn.unit :: rest)
    else none
  | _ => none

/-- The adapter wrapped around a three-parameter closure with mutable first
parameter (`set_fn_3_mut`).  The second and third arguments are moved out
by `mem::take`, leaving default placeholders; the first slot is accessed in
place through `downcast_mut`. -/
def set_fn_3_mut_adapter (tA tB tC : TypeRep)
    (func : Dyn → Dyn → Dyn → Except EvalAltResult Dyn × Dyn)
    (args : List Dyn) (pos : Position) :
    Option (Except EvalAltResult Dyn × List Dyn) :=
  match args with
  | a :: b :: c :: rest =>
    if b.typeOf = tB ∧ c.typeOf = tC ∧ a.typeOf = tA then
      let r := func a b c
      some (r.1.mapError (fun err => err.set_position pos),
        r.2 :: Dyn.unit :: Dyn.unit :: rest)
    else none
  | _ => none

/-- A module resolution service that serves modules added into it
(`StaticModuleResolver`): a mapping from path string to pre-built module. -/
structure StaticModuleResolver where
  entries : List (String × Module)

/-- Create a new empty `StaticModuleResolver`. -/
def StaticModuleResolver.new : StaticModuleResolver := ⟨[]⟩

/-- Resolve a module from the static registry: a direct lookup returning a
clone of the stored module (cloning is the identity on values here), or an
`ErrorModuleNotFound` carrying the path string and call position.  The
engine argument of the trait method is ignored by this implementation. -/
def StaticModuleResolver.resolve (r : StaticModuleResolver) (path : String)
    (pos : Position) : Except EvalAltResult Module :=
  match alookup r.entries path with
  | some m => .ok m
  | none => .error (.errorModuleNotFound path pos)

/-- Split a character list at its last occurrence of `sep`: the first
component is the prefix up to and including the last separator (empty when
none occurs), the second the remainder.  Models `std::path` file-name
splitting. -/
def lastSplit (sep : Char) : List Char → List Char × List Char
  | [] => ([], [])
  | c :: rest =>
    if rest.any (fun x => x = sep) then
      let p := lastSplit sep rest
      (c :: p.1, p.2)
    else if c = sep then ([sep], rest)
    else ([], c :: rest)

/-- The stem of a file name: the portion before its last dot, where a dot
in leading position does not count (models `std::path::Path::file_stem`). -/
def fileStem (name : List Char) : List Char :=
  let p := lastSplit '.' name
  if p.1.length ≤ 1 then name else p.1.dropLast

/-- Append a relative path to a base path (models `PathBuf::push`):
an absolute path replaces the base. -/
def pathPush (base rel : String) : String :=
  if base = "" then rel
  else if rel.startsWith "/" then rel
  else if base.endsWith "/" then base ++ rel
  else base ++ "/" ++ rel

/-- Replace the extension of the final path component (models
`PathBuf::set_extension`): the empty extension removes an existing one. -/
def setExtension (p ext : String) : String :=
  let split := lastSplit '/' p.data
  let stem := fileStem split.2
  let newName := if ext = "" then stem else stem ++ ('.' :: ext.data)
  String.mk (split.1 ++ newName)

/-- A module resolution service that loads module script files from the
file system (`FileModuleResolver`): a base path and a forced extension. -/
structure FileModuleResolver where
  path : String
  extension : String
deriving DecidableEq

/-- The derived `Default` value: the default path buffer and string are
both empty. -/
def FileModuleResolver.defaultResolver : FileModuleResolver := ⟨"", ""⟩

/-- Create a new `FileModuleResolver` with a specific base path and file
extension. -/
def FileModuleResolver.new_with_path_and_extension (path extension : String) :
    FileModuleResolver := ⟨path, extension⟩

/-- Create a new `FileModuleResolver` with a specific base path and the
default extension `rhai`. -/
def FileModuleResolver.new_with_path (path : String) : FileModuleResolver :=
  FileModuleResolver.new_with_path_and_extension path "rhai"

/-- Create a new `FileModuleResolver` with the current directory as base
path: `Default::default()`. -/
def FileModuleResolver.new : FileModuleResolver :=
  FileModuleResolver.defaultResolver

/-- The script file path constructed by `FileModuleResolver::resolve`:
the base path joined with the module path, with the configured extension
forced. -/
def FileModuleResolver.scriptFilePath (r : FileModuleResolver)
    (path : String) : String :=
  setExtension (pathPush r.path path) r.extension

/-- Modelled from the spec: the kind tag of a scope entry (scope.rs
collaborator) — a normal variable, a constant, or a module. -/
inductive ScopeEntryType where
  | Normal : ScopeEntryType
  | Constant : ScopeEntryType
  | Module : ScopeEntryType
deriving DecidableEq

/-- Modelled from the spec: one entry of the evaluation scope (scope.rs
collaborator) — a name, a kind tag, and a dynamic value. -/
structure ScopeEntry where
  name : String
  typ : ScopeEntryType
  value : Dyn

/-- Modelled from the spec: the compiled unit (`AST`) as consumed by this
subsystem — only its script-function library `ast.fn_lib()` is used. -/
structure Ast where
  fn_lib : List ((String × Nat) × FnDef)

/-- One step of the scope harvest of `FileModuleResolver::resolve`: a
normal or constant entry is inserted into the variables map, a module
entry is cast to a module (a failing cast panics: `none`) and inserted
into the sub-modules map. -/
def harvestEntry (m : Module) (e : ScopeEntry) : Option Module :=
  match e.typ with
  | .Normal | .Constant =>
    some (.mk m.modules (ainsert m.variables e.name e.value) m.functions m.fn_lib)
  | .Module =>
    (e.value.castModule).map fun sub =>
      .mk (ainsert m.modules e.name sub) m.variables m.functions m.fn_lib

/-- The scope harvest loop of `FileModuleResolver::resolve`, iterating the
scope entries in order. -/
def harvestScope (m : Module) : List ScopeEntry → Option Module
  | [] => some m
  | e :: rest =>
    match harvestEntry m e with
    | some m2 => harvestScope m2 rest
    | none => none

/-- Resolve a module from a script file (`FileModuleResolver::resolve`).
The external collaborators — `engine.compile_file` and
`engine.eval_ast_with_scope_raw` (which runs the unit against a fresh
scope and is observed here through the final scope it produces) — are
passed in as functions.  Compile and evaluation errors are re-stamped with
the import position; the final scope is harvested into a fresh module and
the unit's script-function library is merged into the module's library. -/
def FileModuleResolver.resolve (r : FileModuleResolver)
    (compile_file : String → Except EvalAltResult Ast)
    (eval_with_scope : Ast → Except EvalAltResult (List ScopeEntry))
    (path : String) (pos : Position) :
    Option (Except EvalAltResult Module) :=
  let file_path := r.scriptFilePath path
  match compile_file file_path with
  | .error err => some (.error (err.set_position pos))
  | .ok ast =>
    match eval_with_scope ast with
    | .error err => some (.error (err.set_position pos))
    | .ok scope =>
      match harvestScope Module.new scope with
      | none => none
      | some m =>
        some (.ok (.mk m.modules m.variables m.functions
          (FunctionsLib.merge m.fn_lib ast.fn_lib)))

/-- Number of bindings of a key in an association list. -/
def countKey {κ α : Type} [DecidableEq κ] (l : List (κ × α)) (key : κ) : Nat :=
  l.countP fun p => decide (p.1 = key)

/-- The last binding of a key in an association list, scanning in order and
keeping the final one: the reference semantics of repeated map insertion. -/
def lastLookup {κ α : Type} [DecidableEq κ] : List (κ × α) → κ → Option α
  | [], _ => none
  | (k, v) :: rest, key =>
    match lastLookup rest key with
    | some w => some w
    | none => if k = key then some v else none

theorem alookup_ainsert {κ α : Type} [DecidableEq κ] (l : List (κ × α))
    (k key : κ) (v : α) :
    alookup (ainsert l k v) key = if k = key then some v else alookup l key := by
  induction l with
  | nil =>
    by_cases h : k = key <;> simp [ainsert, alookup, h]
  | cons p rest ih =>
    obtain ⟨k0, w⟩ := p
    simp only [ainsert]
    by_cases h : k0 = k
    · subst h
      by_cases h2 : k0 = key <;> simp [alookup, h2]
    · simp only [if_neg h]
      by_cases h2 : k0 = key
      · subst h2
        have hne : k ≠ k0 := fun hh => h hh.symm
        simp [alookup, hne]
      · simp [alookup, h2, ih]

theorem mem_keys_ainsert {κ α : Type} [DecidableEq κ] (l : List (κ × α))
    (k key : κ) (v : α) :
    key ∈ (ainsert l k v).map Prod.fst ↔ key ∈ l.map Prod.fst ∨ key = k := by
  induction l with
  | nil => simp [ainsert]
  | cons p rest ih =>
    obtain ⟨k0, w⟩ := p
    by_cases h : k0 = k <;> simp [ainsert, h, ih] <;> tauto

theorem keys_nodup_ainsert {κ α : Type} [DecidableEq κ] (l : List (κ × α))
    (k : κ) (v : α) (h : (l.map Prod.fst).Nodup) :
    ((ainsert l k v).map Prod.fst).Nodup := by
  induction l with
  | nil => simp [ainsert]
  | cons p rest ih =>
    obtain ⟨k0, w⟩ := p
    simp only [List.map_cons, List.nodup_cons] at h
    by_cases hk : k0 = k
    · subst hk
      simpa [ainsert] using h
    · simp only [ainsert, if_neg hk, List.map_cons, List.nodup_cons]
      refine ⟨?_, ih h.2⟩
      rw [mem_keys_ainsert]
      push_neg
      exact ⟨h.1, hk⟩

theorem countKey_eq_zero {κ α : Type} [DecidableEq κ] (l : List (κ × α))
    (key : κ) (h : key ∉ l.map Prod.fst) : countKey l key = 0 := by
  induction l with
  | nil => rfl
  | cons p rest ih =>
    simp only [List.map_cons, List.mem_cons] at h
    push_neg at h
    have hne : ¬(p.1 = key) := fun hh => h.1 hh.symm
    have h2 := ih h.2
    simp [countKey, List.countP_cons, hne] at h2 ⊢
    exact h2

theorem countKey_ainsert {κ α : Type} [DecidableEq κ] (l : List (κ × α))
    (k : κ) (v : α) (h : (l.map Prod.fst).Nodup) :
    countKey (ainsert l k v) k = 1 := by
  induction l with
  | nil => simp [ainsert, countKey, List.countP_cons]
  | cons p rest ih =>
    obtain ⟨k0, w⟩ := p
    simp only [List.map_cons, List.nodup_cons] at h
    by_cases hk : k0 = k
    · subst hk
      have h0 := countKey_eq_zero rest k0 h.1
      simp [countKey, List.countP_cons] at h0 ⊢
      simp [ainsert, List.countP_cons, h0]
      exact h0
    · have h1 := ih h.2
      simp [countKey, List.countP_cons] at h1 ⊢
      simp [ainsert, if_neg hk, List.countP_cons, h1, hk]

theorem alookup_foldl_ainsert {κ α : Type} [DecidableEq κ] (l : List (κ × α))
    (acc : List (κ × α)) (key : κ) :
    alookup (l.foldl (fun m kv => ainsert m kv.1 kv.2) acc) key =
      (match lastLookup l key with
       | some w => some w
       | none => alookup acc key) := by
  induction l generalizing acc with
  | nil => simp [lastLookup]
  | cons p rest ih =>
    obtain ⟨k, v⟩ := p
    simp only [List.foldl_cons, ih, lastLookup]
    cases hrest : lastLookup rest key with
    | some w => simp
    | none => by_cases hk : k = key <;> simp [alookup_ainsert, hk]

/-- C7: `StaticModuleResolver::resolve` is a direct lookup — when a module
is stored under the path it returns that module (a clone; the stored entry
is unchanged, the resolver state being read-only here), and when no module
is stored under the path it fails with a module-not-found error carrying
the original path string and the supplied position. -/
theorem static_resolver_resolve_spec (r : StaticModuleResolver)
    (path : String) (pos : Position) :
    (∀ M, alookup r.entries path = some M →
      r.resolve path pos = .ok M) ∧
    (alookup r.entries path = none →
      r.resolve path pos = .error (.errorModuleNotFound path pos)) := by
  constructor
  · intro M h
    simp [StaticModuleResolver.resolve, h]
  · intro h
    simp [StaticModuleResolver.resolve, h]

/-- Witness for C7 at a concrete registry holding `mathlib`. -/
theorem static_resolver_resolve_spec_witness :
    (StaticModuleResolver.mk [("mathlib", Module.mk [] [("x", Dyn.int 42)] [] [])]).resolve
        "mathlib" ⟨1, 2⟩ = .ok (Module.mk [] [("x", Dyn.int 42)] [] []) ∧
    (StaticModuleResolver.mk [("mathlib", Module.mk [] [("x", Dyn.int 42)] [] [])]).resolve
        "missing" ⟨1, 2⟩ = .error (.errorModuleNotFound "missing" ⟨1, 2⟩) :=
  ⟨(static_resolver_resolve_spec ⟨[("mathlib", Module.mk [] [("x", Dyn.int 42)] [] [])]⟩
      "mathlib" ⟨1, 2⟩).1 (Module.mk [] [("x", Dyn.int 42)] [] []) rfl,
   (static_resolver_resolve_spec ⟨[("mathlib", Module.mk [] [("x", Dyn.int 42)] [] [])]⟩
      "missing" ⟨1, 2⟩).2 rfl⟩

/-- C9: every qualified accessor unconditionally consumes the first path
element with an unchecked `unwrap`, so an empty qualified path makes
`get_qualified_module_mut`, `get_qualified_var_mut`, `get_qualified_fn` and
`get_qualified_fn_lib` panic (embedded as `none`) instead of returning any
error value. -/
theorem qualified_accessors_empty_path_panic (m : Module) (name : String)
    (hash nargs : Nat) (pos : Position) :
    m.get_qualified_module_mut [] = none ∧
    m.get_qualified_var_mut name [] pos = none ∧
    m.get_qualified_fn name hash [] pos = none ∧
    m.get_qualified_fn_lib name nargs [] = none :=
  ⟨rfl, rfl, rfl, rfl⟩

/-- C10: `FileModuleResolver::new` is the derived default, whose forced
extension is the empty string rather than `rhai`; only `new_with_path`
supplies the `rhai` default.  A resolver built with `new` therefore maps
module path `utils/strings` to file `utils/strings` (and strips an
extension already present), while `new_with_path` maps it to
`utils/strings.rhai`. -/
theorem file_resolver_new_empty_extension :
    FileModuleResolver.new.extension = "" ∧
    (∀ p, (FileModuleResolver.new_with_path p).extension = "rhai") ∧
    FileModuleResolver.new.scriptFilePath "utils/strings" = "utils/strings" ∧
    FileModuleResolver.new.scriptFilePath "utils/strings.txt" = "utils/strings" ∧
    (FileModuleResolver.new_with_path "").scriptFilePath "utils/strings" =
      "utils/strings.rhai" := by
  refine ⟨rfl, fun p => rfl, ?_, ?_, ?_⟩ <;> decide

theorem typeRep_code_inj : Function.Injective TypeRep.code := by
  intro t1 t2 h
  cases t1 <;> cases t2 <;> simp_all [TypeRep.code] <;> omega

theorem natListCode_inj : ∀ l1 l2 : List Nat,
    natListCode l1 = natListCode l2 → l1 = l2
  | [], [], _ => rfl
  | [], _ :: _, h => by simp [natListCode] at h
  | _ :: _, [], h => by simp [natListCode] at h
  | n :: r1, m :: r2, h => by
    have h' : Nat.pair n (natListCode r1) = Nat.pair m (natListCode r2) := by
      simp only [natListCode] at h
      omega
    have hp := Nat.pair_eq_pair.mp h'
    have h2 := natListCode_inj r1 r2 hp.2
    rw [hp.1, h2]

theorem calc_fn_hash_params_inj (seed : Nat) (fn_name : String)
    {p1 p2 : List TypeRep}
    (h : calc_fn_hash seed fn_name p1 = calc_fn_hash seed fn_name p2) :
    p1 = p2 := by
  unfold calc_fn_hash at h
  have h1 := (Nat.pair_eq_pair.mp h).2
  have h2 := (Nat.pair_eq_pair.mp h1).2
  have h3 := natListCode_inj _ _ h2
  exact List.map_injective_iff.mpr typeRep_code_inj h3

/-- C3: immediately after `set_fn` returns a hash (all `set_fn_N[_mut]`
registrations delegate to `set_fn`), `contains_fn` at that hash is true and
`get_fn` yields the registered callable; registering twice with an
identical name and parameter type list returns the same hash and leaves
exactly one entry under it, namely the second callable. -/
theorem set_fn_contains_get_replace_spec (seed : Nat) (m : Module)
    (fn_name : String) (params : List TypeRep) (f1 f2 : FnAny)
    (hnd : (m.functions.map Prod.fst).Nodup) :
    (m.set_fn seed fn_name params f1).1.contains_fn
        (m.set_fn seed fn_name params f1).2 = true ∧
    (m.set_fn seed fn_name params f1).1.get_fn
        (m.set_fn seed fn_name params f1).2 = some f1 ∧
    ((m.set_fn seed fn_name params f1).1.set_fn seed fn_name params f2).2 =
        (m.set_fn seed fn_name params f1).2 ∧
    ((m.set_fn seed fn_name params f1).1.set_fn seed fn_name params f2).1.get_fn
        (m.set_fn seed fn_name params f1).2 = some f2 ∧
    countKey
        ((m.set_fn seed fn_name params f1).1.set_fn seed fn_name params f2).1.functions
        (m.set_fn seed fn_name params f1).2 = 1 := by
  refine ⟨?_, ?_, rfl, ?_, ?_⟩
  · simp [Module.set_fn, Module.contains_fn, Module.functions, alookup_ainsert]
  · simp [Module.set_fn, Module.get_fn, Module.functions, alookup_ainsert]
  · simp [Module.set_fn, Module.get_fn, Module.functions, alookup_ainsert]
  · show countKey (ainsert (ainsert m.functions _ f1) _ f2) _ = 1
    exact countKey_ainsert _ _ _ (keys_nodup_ainsert _ _ _ hnd)

/-- Witness for C3 at a concrete registration of `add(i64, i64)`. -/
theorem set_fn_contains_get_replace_spec_witness :
    (Module.new.set_fn 0 "add" [.tInt, .tInt] 7).1.contains_fn
        (Module.new.set_fn 0 "add" [.tInt, .tInt] 7).2 = true ∧
    (Module.new.set_fn 0 "add" [.tInt, .tInt] 7).1.get_fn
        (Module.new.set_fn 0 "add" [.tInt, .tInt] 7).2 = some 7 ∧
    ((Module.new.set_fn 0 "add" [.tInt, .tInt] 7).1.set_fn 0 "add" [.tInt, .tInt] 8).2 =
        (Module.new.set_fn 0 "add" [.tInt, .tInt] 7).2 ∧
    ((Module.new.set_fn 0 "add" [.tInt, .tInt] 7).1.set_fn 0 "add" [.tInt, .tInt] 8).1.get_fn
        (Module.new.set_fn 0 "add" [.tInt, .tInt] 7).2 = some 8 ∧
    countKey
        ((Module.new.set_fn 0 "add" [.tInt, .tInt] 7).1.set_fn 0 "add" [.tInt, .tInt] 8).1.functions
        (Module.new.set_fn 0 "add" [.tInt, .tInt] 7).2 = 1 :=
  set_fn_contains_get_replace_spec 0 Module.new "add" [.tInt, .tInt] 7 8 (by decide)

/-- C4: two functions registered under the same name but different ordered
parameter type lists receive different hashes from `set_fn`, and after
registering both, each remains independently retrievable through `get_fn`
with its own hash. -/
theorem set_fn_overload_coexist_spec (seed : Nat) (m : Module)
    (fn_name : String) (params1 params2 : List TypeRep) (f1 f2 : FnAny)
    (hne : params1 ≠ params2) :
    calc_fn_hash seed fn_name params1 ≠ calc_fn_hash seed fn_name params2 ∧
    ((m.set_fn seed fn_name params1 f1).1.set_fn seed fn_name params2 f2).1.get_fn
        (m.set_fn seed fn_name params1 f1).2 = some f1 ∧
    ((m.set_fn seed fn_name params1 f1).1.set_fn seed fn_name params2 f2).1.get_fn
        ((m.set_fn seed fn_name params1 f1).1.set_fn seed fn_name params2 f2).2 =
        some f2 := by
  have hd : calc_fn_hash seed fn_name params1 ≠ calc_fn_hash seed fn_name params2 :=
    fun h => hne (calc_fn_hash_params_inj seed fn_name h)
  refine ⟨hd, ?_, ?_⟩
  · simp [Module.set_fn, Module.get_fn, Module.functions, alookup_ainsert,
      Ne.symm hd]
  · simp [Module.set_fn, Module.get_fn, Module.functions, alookup_ainsert]

/-- Witness for C4: `add(i64, i64)` and `add(str)` coexist. -/
theorem set_fn_overload_coexist_spec_witness :
    calc_fn_hash 0 "add" [.tInt, .tInt] ≠ calc_fn_hash 0 "add" [.tStr] ∧
    ((Module.new.set_fn 0 "add" [.tInt, .tInt] 7).1.set_fn 0 "add" [.tStr] 8).1.get_fn
        (Module.new.set_fn 0 "add" [.tInt, .tInt] 7).2 = some 7 ∧
    ((Module.new.set_fn 0 "add" [.tInt, .tInt] 7).1.set_fn 0 "add" [.tStr] 8).1.get_fn
        ((Module.new.set_fn 0 "add" [.tInt, .tInt] 7).1.set_fn 0 "add" [.tStr] 8).2 =
        some 8 :=
  set_fn_overload_coexist_spec 0 Module.new "add" [.tInt, .tInt] [.tStr] 7 8
    (by decide)

/-- C8: with a fixed hashing seed configured, the function-dispatch hash of
a given name and parameter type list is identical across runs (the
run-dependent randomized seed is ignored); without one, the hash is still
deterministic within a single run; and the `set_fn` / `contains_fn` /
`get_fn` triple stays mutually consistent under either mode. -/
theorem hash_seed_stability_spec (cfg : Option (Nat × Nat × Nat × Nat))
    (s : Nat × Nat × Nat × Nat) (r1 r2 : Nat) (fn_name : String)
    (params : List TypeRep) (m : Module) (f : FnAny) :
    (cfg = some s →
      calc_fn_hash (resolveSeed cfg r1) fn_name params =
        calc_fn_hash (resolveSeed cfg r2) fn_name params) ∧
    calc_fn_hash (resolveSeed cfg r1) fn_name params =
      calc_fn_hash (resolveSeed cfg r1) fn_name params ∧
    (m.set_fn (resolveSeed cfg r1) fn_name params f).1.contains_fn
        (m.set_fn (resolveSeed cfg r1) fn_name params f).2 = true ∧
    (m.set_fn (resolveSeed cfg r1) fn_name params f).1.get_fn
        (m.set_fn (resolveSeed cfg r1) fn_name params f).2 = some f := by
  refine ⟨?_, rfl, ?_, ?_⟩
  · intro h; subst h; rfl
  · simp [Module.set_fn, Module.contains_fn, Module.functions, alookup_ainsert]
  · simp [Module.set_fn, Module.get_fn, Module.functions, alookup_ainsert]

/-- Witness for C8 at the concrete seed `(1, 2, 3, 4)` and two distinct
run seeds. -/
theorem hash_seed_stability_spec_witness :
    calc_fn_hash (resolveSeed (some (1, 2, 3, 4)) 5) "add" [.tInt, .tInt] =
      calc_fn_hash (resolveSeed (some (1, 2, 3, 4)) 6) "add" [.tInt, .tInt] ∧
    calc_fn_hash (resolveSeed (some (1, 2, 3, 4)) 5) "add" [.tInt, .tInt] =
      calc_fn_hash (resolveSeed (some (1, 2, 3, 4)) 5) "add" [.tInt, .tInt] ∧
    (Module.new.set_fn (resolveSeed (some (1, 2, 3, 4)) 5) "add" [.tInt, .tInt] 7).1.contains_fn
        (Module.new.set_fn (resolveSeed (some (1, 2, 3, 4)) 5) "add" [.tInt, .tInt] 7).2 = true ∧
    (Module.new.set_fn (resolveSeed (some (1, 2, 3, 4)) 5) "add" [.tInt, .tInt] 7).1.get_fn
        (Module.new.set_fn (resolveSeed (some (1, 2, 3, 4)) 5) "add" [.tInt, .tInt] 7).2 =
        some 7 :=
  ⟨(hash_seed_stability_spec (some (1, 2, 3, 4)) (1, 2, 3, 4) 5 6 "add"
      [.tInt, .tInt] Module.new 7).1 rfl,
   (hash_seed_stability_spec (some (1, 2, 3, 4)) (1, 2, 3, 4) 5 6 "add"
      [.tInt, .tInt] Module.new 7).2.1,
   (hash_seed_stability_spec (some (1, 2, 3, 4)) (1, 2, 3, 4) 5 6 "add"
      [.tInt, .tInt] Module.new 7).2.2.1,
   (hash_seed_stability_spec (some (1, 2, 3, 4)) (1, 2, 3, 4) 5 6 "add"
      [.tInt, .tInt] Module.new 7).2.2.2⟩

/-- C5: in every `set_fn_N_mut` adapter (N = 1, 2, 3), the first argument
slot is accessed through a mutable reference and is neither moved out nor
replaced by the adapter — after the call the slot holds exactly the state
the closure left the original first argument in (so an unmutated first
argument stays unchanged) — while the non-mutable slots 2..N have their
values moved out and replaced by the default placeholder `Dyn.unit`, and
slots beyond N are untouched. -/
theorem set_fn_mut_adapter_frame_spec (tA tB tC : TypeRep)
    (f1 : Dyn → Except EvalAltResult Dyn × Dyn)
    (f2 : Dyn → Dyn → Except EvalAltResult Dyn × Dyn)
    (f3 : Dyn → Dyn → Dyn → Except EvalAltResult Dyn × Dyn)
    (a b c : Dyn) (rest : List Dyn) (pos : Position)
    (ha : a.typeOf = tA) (hb : b.typeOf = tB) (hc : c.typeOf = tC) :
    set_fn_1_mut_adapter tA f1 (a :: rest) pos =
      some ((f1 a).1.mapError (fun err => err.set_position pos),
        (f1 a).2 :: rest) ∧
    set_fn_2_mut_adapter tA tB f2 (a :: b :: rest) pos =
      some ((f2 a b).1.mapError (fun err => err.set_position pos),
        (f2 a b).2 :: Dyn.unit :: rest) ∧
    set_fn_3_mut_adapter tA tB tC f3 (a :: b :: c :: rest) pos =
      some ((f3 a b c).1.mapError (fun err => err.set_position pos),
        (f3 a b c).2 :: Dyn.unit :: Dyn.unit :: rest) ∧
    ((f2 a b).2 = a →
      set_fn_2_mut_adapter tA tB f2 (a :: b :: rest) pos =
        some ((f2 a b).1.mapError (fun err => err.set_position pos),
          a :: Dyn.unit :: rest)) := by
  refine ⟨?_, ?_, ?_, ?_⟩
  · simp [set_fn_1_mut_adapter, ha]
  · simp [set_fn_2_mut_adapter, ha, hb]
  · simp [set_fn_3_mut_adapter, ha, hb, hc]
  · intro hkeep
    simp [set_fn_2_mut_adapter, ha, hb, hkeep]

/-- Witness for C5: an integer-increment closure over concrete argument
slots. -/
theorem set_fn_mut_adapter_frame_spec_witness :
    set_fn_1_mut_adapter .tInt
        (fun _ => (.ok .unit, .int 9)) [.int 1] ⟨0, 0⟩ =
      some (.ok .unit, [.int 9]) ∧
    set_fn_2_mut_adapter .tInt .tStr
        (fun _ b => (.ok b, .int 9)) [.int 1, .str "s"] ⟨0, 0⟩ =
      some (.ok (.str "s"), [.int 9, .unit]) ∧
    set_fn_3_mut_adapter .tInt .tStr .tBool
        (fun _ _ c => (.ok c, .int 9)) [.int 1, .str "s", .boolv true] ⟨0, 0⟩ =
      some (.ok (.boolv true), [.int 9, .unit, .unit]) :=
  ⟨(set_fn_mut_adapter_frame_spec .tInt .tStr .tBool
      (fun _ => (.ok .unit, .int 9)) (fun _ b => (.ok b, .int 9))
      (fun _ _ c => (.ok c, .int 9)) (.int 1) (.str "s") (.boolv true) []
      ⟨0, 0⟩ rfl rfl rfl).1,
   (set_fn_mut_adapter_frame_spec .tInt .tStr .tBool
      (fun _ => (.ok .unit, .int 9)) (fun _ b => (.ok b, .int 9))
      (fun _ _ c => (.ok c, .int 9)) (.int 1) (.str "s") (.boolv true) []
      ⟨0, 0⟩ rfl rfl rfl).2.1,
   (set_fn_mut_adapter_frame_spec .tInt .tStr .tBool
      (fun _ => (.ok .unit, .int 9)) (fun _ b => (.ok b, .int 9))
      (fun _ _ c => (.ok c, .int 9)) (.int 1) (.str "s") (.boolv true) []
      ⟨0, 0⟩ rfl rfl rfl).2.2.1⟩

theorem get_qualified_module_loop_append (pre : List (String × Position)) :
    ∀ (m mMid : Module) (id : String) (idp : Position)
      (post : List (String × Position)),
      Module.get_qualified_module_loop m pre = .ok mMid →
      mMid.get_sub_module_mut id = none →
      Module.get_qualified_module_loop m (pre ++ (id, idp) :: post) =
        .error (.errorModuleNotFound id idp) := by
  induction pre with
  | nil =>
    intro m mMid id idp post hok habs
    simp only [Module.get_qualified_module_loop] at hok
    cases hok
    simp [Module.get_qualified_module_loop, habs]
  | cons seg pre ih =>
    intro m mMid id idp post hok habs
    obtain ⟨k, p⟩ := seg
    simp only [Module.get_qualified_module_loop] at hok ⊢
    cases hsub : m.get_sub_module_mut k with
    | some sub =>
      rw [hsub] at hok
      simp only [hsub]
      exact ih sub mMid id idp post hok habs
    | none => rw [hsub] at hok; cases hok

/-- C1: `get_qualified_var_mut` never traverses the first path segment;
it descends the remaining segments through sub-modules and then looks up
the variable — succeeding when the chain exists and the resolved module
contains the name, failing with a variable-not-found error carrying the
name and the supplied position when the chain exists but the name is
absent, and failing with a module-not-found error carrying the missing
segment's name and that segment's position the instant any segment after
the first has no matching sub-module. -/
theorem get_qualified_var_mut_spec (m m' : Module) (first : String × Position)
    (rest : List (String × Position)) (name : String) (pos : Position) :
    (Module.get_qualified_module_loop m rest = .ok m' →
      (∀ v, alookup m'.variables name = some v →
        m.get_qualified_var_mut name (first :: rest) pos = some (.ok v)) ∧
      (alookup m'.variables name = none →
        m.get_qualified_var_mut name (first :: rest) pos =
          some (.error (.errorVariableNotFound name pos)))) ∧
    (∀ (pre : List (String × Position)) (id : String) (idp : Position)
        (post : List (String × Position)) (mMid : Module),
      rest = pre ++ (id, idp) :: post →
      Module.get_qualified_module_loop m pre = .ok mMid →
      mMid.get_sub_module_mut id = none →
      m.get_qualified_var_mut name (first :: rest) pos =
        some (.error (.errorModuleNotFound id idp))) := by
  constructor
  · intro hok
    constructor
    · intro v hv
      simp [Module.get_qualified_var_mut, Module.get_qualified_module_mut,
        hok, Module.get_var_mut, hv, Except.bind]
    · intro hv
      simp [Module.get_qualified_var_mut, Module.get_qualified_module_mut,
        hok, Module.get_var_mut, hv, Except.bind]
  · intro pre id idp post mMid hsplit hok habs
    have herr := get_qualified_module_loop_append pre m mMid id idp post hok habs
    rw [← hsplit] at herr
    simp [Module.get_qualified_var_mut, Module.get_qualified_module_mut, herr,
      Except.bind]

/-- Witness for C1 on the module chain `a -> b` with `b` holding `y`:
success on `y`, variable-not-found on `z`, module-not-found on the absent
sub-module `c`. -/
theorem get_qualified_var_mut_spec_witness :
    (Module.mk
        [("a", Module.mk [("b", Module.mk [] [("y", Dyn.int 1)] [] [])] [] [] [])]
        [] [] []).get_qualified_var_mut "y"
        [("self", ⟨1, 0⟩), ("a", ⟨1, 1⟩), ("b", ⟨1, 2⟩)] ⟨1, 3⟩ =
      some (.ok (Dyn.int 1)) ∧
    (Module.mk
        [("a", Module.mk [("b", Module.mk [] [("y", Dyn.int 1)] [] [])] [] [] [])]
        [] [] []).get_qualified_var_mut "z"
        [("self", ⟨1, 0⟩), ("a", ⟨1, 1⟩), ("b", ⟨1, 2⟩)] ⟨1, 3⟩ =
      some (.error (.errorVariableNotFound "z" ⟨1, 3⟩)) ∧
    (Module.mk
        [("a", Module.mk [("b", Module.mk [] [("y", Dyn.int 1)] [] [])] [] [] [])]
        [] [] []).get_qualified_var_mut "y"
        [("self", ⟨1, 0⟩), ("a", ⟨1, 1⟩), ("c", ⟨1, 2⟩)] ⟨1, 3⟩ =
      some (.error (.errorModuleNotFound "c" ⟨1, 2⟩)) :=
  ⟨((get_qualified_var_mut_spec
      (Module.mk
        [("a", Module.mk [("b", Module.mk [] [("y", Dyn.int 1)] [] [])] [] [] [])]
        [] [] [])
      (Module.mk [] [("y", Dyn.int 1)] [] []) ("self", ⟨1, 0⟩)
      [("a", ⟨1, 1⟩), ("b", ⟨1, 2⟩)] "y" ⟨1, 3⟩).1 rfl).1 (Dyn.int 1) rfl,
   ((get_qualified_var_mut_spec
      (Module.mk
        [("a", Module.mk [("b", Module.mk [] [("y", Dyn.int 1)] [] [])] [] [] [])]
        [] [] [])
      (Module.mk [] [("y", Dyn.int 1)] [] []) ("self", ⟨1, 0⟩)
      [("a", ⟨1, 1⟩), ("b", ⟨1, 2⟩)] "z" ⟨1, 3⟩).1 rfl).2 rfl,
   (get_qualified_var_mut_spec
      (Module.mk
        [("a", Module.mk [("b", Module.mk [] [("y", Dyn.int 1)] [] [])] [] [] [])]
        [] [] [])
      (Module.mk [] [("y", Dyn.int 1)] [] []) ("self", ⟨1, 0⟩)
      [("a", ⟨1, 1⟩), ("c", ⟨1, 2⟩)] "y" ⟨1, 3⟩).2 [("a", ⟨1, 1⟩)] "c" ⟨1, 2⟩ []
      (Module.mk [("b", Module.mk [] [("y", Dyn.int 1)] [] [])] [] [] []) rfl rfl
      rfl⟩

/-- The fully-qualified display name the specification describes: every
path segment joined with the namespace separator token, then the function
name. -/
def qualifiedName (ms : List (String × Position)) (name : String) : String :=
  ms.foldr (fun seg acc => seg.1 ++ namespaceSeparator ++ acc) name

theorem foldl_qualified_name (name : String) :
    ∀ (ms : List (String × Position)) (s : String),
      ms.foldl (fun acc seg => acc ++ seg.1 ++ namespaceSeparator) s ++ name =
        s ++ qualifiedName ms name
  | [], s => by simp [qualifiedName]
  | seg :: ms, s => by
    simp only [List.foldl_cons, qualifiedName, List.foldr_cons]
    rw [foldl_qualified_name name ms (s ++ seg.1 ++ namespaceSeparator)]
    simp [qualifiedName, String.append_assoc]

/-- C6: when the qualified path's sub-module chain resolves but the hash is
absent from the resolved module's native-function table, `get_qualified_fn`
fails with a function-not-found error whose display name concatenates, for
every path segment in order (including the first), the segment name
followed by the namespace separator token, then the function name, and
whose position is the supplied call position. -/
theorem get_qualified_fn_not_found_spec (m m' : Module)
    (first : String × Position) (rest : List (String × Position))
    (name : String) (hash : Nat) (pos : Position)
    (hok : Module.get_qualified_module_loop m rest = .ok m')
    (habs : alookup m'.functions hash = none) :
    m.get_qualified_fn name hash (first :: rest) pos =
      some (.error (.errorFunctionNotFound
        (qualifiedName (first :: rest) name) pos)) := by
  simp [Module.get_qualified_fn, Module.get_qualified_module_mut, hok,
    Except.bind, Module.get_fn, habs]
  rw [foldl_qualified_name name rest (first.1 ++ namespaceSeparator)]
  simp [qualifiedName, String.append_assoc]

/-- Witness for C6: the chain `a -> b` resolves but hash 5 is unregistered,
producing the joined display name `self::a::b::f`. -/
theorem get_qualified_fn_not_found_spec_witness :
    (Module.mk
        [("a", Module.mk [("b", Module.mk [] [("y", Dyn.int 1)] [] [])] [] [] [])]
        [] [] []).get_qualified_fn "f" 5
        [("self", ⟨1, 0⟩), ("a", ⟨1, 1⟩), ("b", ⟨1, 2⟩)] ⟨1, 3⟩ =
      some (.error (.errorFunctionNotFound "self::a::b::f" ⟨1, 3⟩)) :=
  get_qualified_fn_not_found_spec
    (Module.mk
      [("a", Module.mk [("b", Module.mk [] [("y", Dyn.int 1)] [] [])] [] [] [])]
      [] [] [])
    (Module.mk [] [("y", Dyn.int 1)] [] []) ("self", ⟨1, 0⟩)
    [("a", ⟨1, 1⟩), ("b", ⟨1, 2⟩)] "f" 5 ⟨1, 3⟩ rfl rfl

/-- The variable bindings the specification says the harvest produces: the
scope entries tagged normal or constant, in scope iteration order. -/
def varEntries (scope : List ScopeEntry) : List (String × Dyn) :=
  scope.filterMap fun e =>
    if e.typ = ScopeEntryType.Normal ∨ e.typ = ScopeEntryType.Constant then
      some (e.name, e.value)
    else none

/-- The sub-module bindings the specification says the harvest produces:
the scope entries tagged module, cast to modules, in scope iteration
order. -/
def modEntries (scope : List ScopeEntry) : List (String × Module) :=
  scope.filterMap fun e =>
    if e.typ = ScopeEntryType.Module then
      (e.value.castModule).map fun sub => (e.name, sub)
    else none

theorem harvestScope_characterization (scope : List ScopeEntry) :
    ∀ m0 : Module,
      (∀ e ∈ scope, e.typ = ScopeEntryType.Module →
        (e.value.castModule).isSome = true) →
      ∃ M, harvestScope m0 scope = some M ∧
        M.functions = m0.functions ∧
        M.fn_lib = m0.fn_lib ∧
        (∀ n, alookup M.variables n =
          (match lastLookup (varEntries scope) n with
           | some v => some v
           | none => alookup m0.variables n)) ∧
        (∀ n, alookup M.modules n =
          (match lastLookup (modEntries scope) n with
           | some sub => some sub
           | none => alookup m0.modules n)) := by
  induction scope with
  | nil =>
    intro m0 _
    exact ⟨m0, rfl, rfl, rfl, by simp [varEntries, lastLookup],
      by simp [modEntries, lastLookup]⟩
  | cons e rest ih =>
    intro m0 hcast
    have hcast' : ∀ x ∈ rest, x.typ = ScopeEntryType.Module →
        (x.value.castModule).isSome = true :=
      fun x hx => hcast x (List.mem_cons_of_mem _ hx)
    cases htyp : e.typ with
    | Normal =>
      obtain ⟨M, hM, hfun, hlib, hvar, hmod⟩ :=
        ih (Module.mk m0.modules (ainsert m0.variables e.name e.value)
          m0.functions m0.fn_lib) hcast'
      have hve : varEntries (e :: rest) = (e.name, e.value) :: varEntries rest := by
        simp [varEntries, List.filterMap_cons, htyp]
      have hme : modEntries (e :: rest) = modEntries rest := by
        simp [modEntries, List.filterMap_cons, htyp]
      refine ⟨M, ?_, hfun, hlib, ?_, ?_⟩
      · simp [harvestScope, harvestEntry, htyp, hM]
      · intro n
        rw [hvar n, hve]
        simp only [lastLookup, Module.variables, alookup_ainsert]
        cases hl : lastLookup (varEntries rest) n <;>
          by_cases hn : e.name = n <;> simp [hl, hn]
      · intro n
        rw [hmod n, hme]
        rfl
    | Constant =>
      obtain ⟨M, hM, hfun, hlib, hvar, hmod⟩ :=
        ih (Module.mk m0.modules (ainsert m0.variables e.name e.value)
          m0.functions m0.fn_lib) hcast'
      have hve : varEntries (e :: rest) = (e.name, e.value) :: varEntries rest := by
        simp [varEntries, List.filterMap_cons, htyp]
      have hme : modEntries (e :: rest) = modEntries rest := by
        simp [modEntries, List.filterMap_cons, htyp]
      refine ⟨M, ?_, hfun, hlib, ?_, ?_⟩
      · simp [harvestScope, harvestEntry, htyp, hM]
      · intro n
        rw [hvar n, hve]
        simp only [lastLookup, Module.variables, alookup_ainsert]
        cases hl : lastLookup (varEntries rest) n <;>
          by_cases hn : e.name = n <;> simp [hl, hn]
      · intro n
        rw [hmod n, hme]
        rfl
    | Module =>
      have hs := hcast e (List.mem_cons_self e rest) htyp
      obtain ⟨sub, hsub⟩ := Option.isSome_iff_exists.mp hs
      obtain ⟨M, hM, hfun, hlib, hvar, hmod⟩ :=
        ih (Module.mk (ainsert m0.modules e.name sub) m0.variables
          m0.functions m0.fn_lib) hcast'
      have hve : varEntries (e :: rest) = varEntries rest := by
        simp [varEntries, List.filterMap_cons, htyp]
      have hme : modEntries (e :: rest) = (e.name, sub) :: modEntries rest := by
        simp [modEntries, List.filterMap_cons, htyp, hsub]
      refine ⟨M, ?_, hfun, hlib, ?_, ?_⟩
      · simp [harvestScope, harvestEntry, htyp, hsub, hM]
      · intro n
        rw [hvar n, hve]
        rfl
      · intro n
        rw [hmod n, hme]
        simp only [lastLookup, Module.modules, alookup_ainsert]
        cases hl : lastLookup (modEntries rest) n <;>
          by_cases hn : e.name = n <;> simp [hl, hn]

/-- C2: `FileModuleResolver::resolve` harvests the scope produced by
evaluating the compiled unit into a fresh module — every entry tagged
normal or constant becomes a module variable under its scope name with
last write winning in scope iteration order, every entry tagged module is
cast to a module and installed as a sub-module under its scope name, and
the unit's script-function library is merged into the module's previously
empty library with last-merged-wins on name+arity collisions — and the
populated module is returned. -/
theorem file_resolver_harvest_spec (r : FileModuleResolver)
    (compile_file : String → Except EvalAltResult Ast)
    (eval_with_scope : Ast → Except EvalAltResult (List ScopeEntry))
    (path : String) (pos : Position) (ast : Ast) (scope : List ScopeEntry)
    (hc : compile_file (r.scriptFilePath path) = .ok ast)
    (he : eval_with_scope ast = .ok scope)
    (hcast : ∀ e ∈ scope, e.typ = ScopeEntryType.Module →
      (e.value.castModule).isSome = true) :
    ∃ M, r.resolve compile_file eval_with_scope path pos = some (.ok M) ∧
      (∀ n, alookup M.variables n = lastLookup (varEntries scope) n) ∧
      (∀ n, alookup M.modules n = lastLookup (modEntries scope) n) ∧
      M.fn_lib = FunctionsLib.merge Module.new.fn_lib ast.fn_lib ∧
      (∀ fname arity, FunctionsLib.get_function M.fn_lib fname arity =
        lastLookup ast.fn_lib (fname, arity)) := by
  obtain ⟨Mh, hM, hfun, hlib, hvar, hmod⟩ :=
    harvestScope_characterization scope Module.new hcast
  refine ⟨Module.mk Mh.modules Mh.variables Mh.functions
      (FunctionsLib.merge Mh.fn_lib ast.fn_lib), ?_, ?_, ?_, ?_, ?_⟩
  · simp [FileModuleResolver.resolve, hc, he, hM]
  · intro n
    have hv := hvar n
    simp only [Module.variables] at hv ⊢
    rw [hv]
    cases lastLookup (varEntries scope) n <;> rfl
  · intro n
    have hm := hmod n
    simp only [Module.modules] at hm ⊢
    rw [hm]
    cases lastLookup (modEntries scope) n <;> rfl
  · show FunctionsLib.merge Mh.fn_lib ast.fn_lib =
      FunctionsLib.merge Module.new.fn_lib ast.fn_lib
    rw [hlib]
  · intro fname arity
    show alookup (FunctionsLib.merge Mh.fn_lib ast.fn_lib) (fname, arity) =
      lastLookup ast.fn_lib (fname, arity)
    rw [hlib]
    unfold FunctionsLib.merge
    rw [alookup_foldl_ainsert]
    cases lastLookup ast.fn_lib (fname, arity) <;> rfl

/-- Witness for C2: a scope with a shadowed variable `PI`, a sub-module
`sub`, and a unit defining the script function `double` of arity 1. -/
theorem file_resolver_harvest_spec_witness :
    ∃ M, (FileModuleResolver.new_with_path "P").resolve
        (fun _ => .ok ⟨[(("double", 1), ⟨"double", 1, 0⟩)]⟩)
        (fun _ => .ok
          [⟨"PI", ScopeEntryType.Normal, Dyn.int 3⟩,
           ⟨"PI", ScopeEntryType.Constant, Dyn.int 4⟩,
           ⟨"sub", ScopeEntryType.Module, Dyn.modv (Module.mk [] [] [] [])⟩])
        "utils/strings" ⟨2, 0⟩ = some (.ok M) ∧
      (∀ n, alookup M.variables n = lastLookup (varEntries
          [⟨"PI", ScopeEntryType.Normal, Dyn.int 3⟩,
           ⟨"PI", ScopeEntryType.Constant, Dyn.int 4⟩,
           ⟨"sub", ScopeEntryType.Module, Dyn.modv (Module.mk [] [] [] [])⟩]) n) ∧
      (∀ n, alookup M.modules n = lastLookup (modEntries
          [⟨"PI", ScopeEntryType.Normal, Dyn.int 3⟩,
           ⟨"PI", ScopeEntryType.Constant, Dyn.int 4⟩,
           ⟨"sub", ScopeEntryType.Module, Dyn.modv (Module.mk [] [] [] [])⟩]) n) ∧
      M.fn_lib = FunctionsLib.merge Module.new.fn_lib
        [(("double", 1), ⟨"double", 1, 0⟩)] ∧
      (∀ fname arity, FunctionsLib.get_function M.fn_lib fname arity =
        lastLookup [(("double", 1), ⟨"double", 1, 0⟩)] (fname, arity)) :=
  file_resolver_harvest_spec (FileModuleResolver.new_with_path "P")
    (fun _ => .ok ⟨[(("double", 1), ⟨"double", 1, 0⟩)]⟩)
    (fun _ => .ok
      [⟨"PI", ScopeEntryType.Normal, Dyn.int 3⟩,
       ⟨"PI", ScopeEntryType.Constant, Dyn.int 4⟩,
       ⟨"sub", ScopeEntryType.Module, Dyn.modv (Module.mk [] [] [] [])⟩])
    "utils/strings" ⟨2, 0⟩ ⟨[(("double", 1), ⟨"double", 1, 0⟩)]⟩
    [⟨"PI", ScopeEntryType.Normal, Dyn.int 3⟩,
     ⟨"PI", ScopeEntryType.Constant, Dyn.int 4⟩,
     ⟨"sub", ScopeEntryType.Module, Dyn.modv (Module.mk [] [] [] [])⟩]
    rfl rfl (by decide)

end Rhai
